import Mathlib

/-
Shallow embedding of the visible RedisInsight sources: the stream
get-entries REST operation (whose request and response schemas are
translated from the API test suite; the service itself is modelled from
the specification, since its implementation is not among the visible
files), the testcafe database API helper functions, and the stream
groups / consumers view components.
-/

/-! ## JSON values, used for request bodies and response serialization -/

/-- A JSON value, as carried by request and response bodies.  jint holds an
integer number, jnum stands for a non-integer number. -/
inductive JVal where
  | jstr (s : String)
  | jint (n : Int)
  | jnum
  | jbool (b : Bool)
  | jnull
  | jobj (fields : List (String × JVal))
  | jarr (elems : List JVal)

/-- First value bound to key k in an association list (JS object field lookup). -/
def lookupKey {V : Type} (k : String) (l : List (String × V)) : Option V :=
  (l.find? (fun p => p.1 == k)).map Prod.snd

/-! ## Database registry and the testcafe API helpers (api/api-database) -/

/-- A stored database connection record, as returned by GET /databases:
a server-assigned id and a user-chosen name. -/
structure DatabaseRecord where
  id : String
  name : String
deriving DecidableEq, Repr

/-- getAllDatabases: GET /databases returns every stored record. -/
def getAllDatabases (dbs : List DatabaseRecord) : List DatabaseRecord := dbs

/-- getDatabaseIdByName from the testcafe helpers: throws on a missing or
empty name (JS falsiness of undefined and of the empty string), filters all
databases by exact name match preserving enumeration order, returns the first
match's id, and resolves to undefined (here: none) when nothing matches. -/
def getDatabaseIdByName (databaseName : Option String) (dbs : List DatabaseRecord) :
    Except String (Option String) :=
  match databaseName with
  | none => .error "Error: Missing databaseName"
  | some n =>
    if n = "" then .error "Error: Missing databaseName"
    else .ok ((((getAllDatabases dbs).filter (fun item => item.name == n)).head?).map (·.id))

/-- Modelled from the spec: the DELETE /databases endpoint implementation is
not among the visible files; per the specification (section 3), records are
"deleted via DELETE by id list", so the endpoint removes every stored record
whose id occurs in the ids of the request body. -/
def deleteDatabasesEndpoint (ids : List String) (dbs : List DatabaseRecord) :
    List DatabaseRecord :=
  dbs.filter (fun db => !(ids.contains db.id))

/-- deleteStandaloneDatabaseApi from the testcafe helpers: resolve the name to
an id with getDatabaseIdByName, then DELETE /databases with that single id;
throws when no id was resolved. -/
def deleteStandaloneDatabaseApi (databaseName : Option String) (dbs : List DatabaseRecord) :
    Except String (List DatabaseRecord) :=
  match getDatabaseIdByName databaseName dbs with
  | .error e => .error e
  | .ok none => .error "Error: Missing databaseId"
  | .ok (some databaseId) => .ok (deleteDatabasesEndpoint [databaseId] dbs)

/-! ## GroupsViewWrapper component state (stream consumer groups view) -/

/-- The popover-name suffix used by the groups view. -/
def suffix : String := "_stream_group"

/-- IConsumerGroup: a ConsumerGroupDto extended with the local editing flag. -/
structure IConsumerGroup where
  name : String
  consumers : Nat
  pending : Nat
  lastDeliveredId : String
  editing : Bool
deriving DecidableEq, Repr

/-- Local component state of GroupsViewWrapper: the groups list and the
name of the group whose delete-confirmation popover is open. -/
structure GroupsViewState where
  groups : List IConsumerGroup
  deleting : String
deriving DecidableEq, Repr

/-- A redux action the groups view could dispatch against the stream. -/
inductive StreamAction where
  | deleteStreamEntry (key : String) (entries : List String)
deriving DecidableEq, Repr

/-- closePopover: clears the deleting marker. -/
def closePopover (st : GroupsViewState) : GroupsViewState :=
  { st with deleting := "" }

/-- showPopover: marks the named group's popover as open. -/
def showPopover (st : GroupsViewState) (groupName : String) : GroupsViewState :=
  { st with deleting := groupName ++ suffix }

/-- handleDeleteGroup as written in GroupsViewWrapper: the
deleteStreamEntry dispatch is commented out, so it only calls closePopover
and dispatches no action.  The second component lists the dispatched
actions. -/
def handleDeleteGroup (st : GroupsViewState) (groupName : String) :
    GroupsViewState × List StreamAction :=
  (closePopover st, [])

/-- Effect of dispatched actions on the server-side list of group names of
the underlying stream: deleteStreamEntry removes the named entries. -/
def applyStreamAction (serverGroups : List String) : StreamAction → List String
  | .deleteStreamEntry _ entries => serverGroups.filter (fun g => !(entries.contains g))

/-- Folding a dispatched action list over the server-side stream state. -/
def applyStreamActions (serverGroups : List String) (acts : List StreamAction) :
    List String :=
  acts.foldl applyStreamAction serverGroups

/-! ## Stream entry range query endpoint (POST /instance/:id/streams/get-entries) -/

/-- A stream entry id: a millisecond timestamp and a sequence number,
ordered lexicographically (Redis stream ids are monotonic in this order). -/
abbrev StreamId : Type := Nat × Nat

/-- Lexicographic order on stream ids. -/
def idLe (a b : StreamId) : Prop :=
  a.1 < b.1 ∨ (a.1 = b.1 ∧ a.2 ≤ b.2)

/-- Strict lexicographic order on stream ids. -/
def idLt (a b : StreamId) : Prop :=
  a.1 < b.1 ∨ (a.1 = b.1 ∧ a.2 < b.2)

instance (a b : StreamId) : Decidable (idLe a b) := by
  unfold idLe; exact inferInstance

instance (a b : StreamId) : Decidable (idLt a b) := by
  unfold idLt; exact inferInstance

/-- Renders a stream id in the wire format ms-seq. -/
def formatStreamId (i : StreamId) : String :=
  toString i.1 ++ "-" ++ toString i.2

/-- Parses an explicit stream id of the wire format ms-seq (or a bare ms,
whose sequence number defaults to 0). -/
def parseStreamId (s : String) : StreamId :=
  match s.splitOn "-" with
  | [ms] => ((ms.toNat?).getD 0, 0)
  | ms :: seq :: _ => ((ms.toNat?).getD 0, (seq.toNat?).getD 0)
  | [] => (0, 0)

/-- A stream entry: its id and its field-value pairs. -/
structure StreamEntry where
  id : StreamId
  fields : List (String × String)
deriving DecidableEq, Repr

/-- A Redis stream: its entries, kept by the server in ascending id order,
and the last generated entry id. -/
structure RedisStream where
  entries : List StreamEntry
  lastGeneratedId : StreamId
deriving DecidableEq, Repr

/-- A stored Redis value is either a stream or a key of some other type. -/
inductive RedisValue where
  | stream (s : RedisStream)
  | nonStream
deriving DecidableEq, Repr

/-- The ACL of the connection user, restricted to the commands the
get-entries operation issues. -/
structure Acl where
  xinfo : Bool
  xrange : Bool
  xrevrange : Bool
deriving DecidableEq, Repr

/-- A configured Redis instance: its keyspace and the connection user's ACL. -/
structure RedisInstance where
  keys : List (String × RedisValue)
  acl : Acl
deriving DecidableEq, Repr

/-- The sortOrder values accepted by the endpoint. -/
inductive SortOrder where
  | ASC
  | DESC
deriving DecidableEq, Repr

/-- The request DTO of the get-entries endpoint with its default values:
start -, end +, count 500, sortOrder DESC (the defaults are those the API
test suite observes when the fields are omitted). -/
structure GetStreamEntriesDto where
  keyName : String
  start : String := "-"
  «end» : String := "+"
  count : Nat := 500
  sortOrder : SortOrder := .DESC
deriving DecidableEq, Repr

/-- Does the start marker admit the id: - admits everything, + nothing,
an explicit id admits ids greater than or equal to it. -/
def afterStart (start : String) (i : StreamId) : Bool :=
  if start = "-" then true
  else if start = "+" then false
  else decide (idLe (parseStreamId start) i)

/-- Does the end marker admit the id: + admits everything, - nothing,
an explicit id admits ids less than or equal to it. -/
def beforeEnd (stop : String) (i : StreamId) : Bool :=
  if stop = "+" then true
  else if stop = "-" then false
  else decide (idLe i (parseStreamId stop))

/-- XRANGE key start stop COUNT count: the first count entries of the
requested range in ascending id order. -/
def xrangeEntries (s : RedisStream) (start stop : String) (count : Nat) :
    List StreamEntry :=
  ((s.entries.filter (fun e => afterStart start e.id && beforeEnd stop e.id)).take count)

/-- XREVRANGE key stop start COUNT count: the first count entries of the
requested range in descending id order. -/
def xrevrangeEntries (s : RedisStream) (start stop : String) (count : Nat) :
    List StreamEntry :=
  ((s.entries.filter (fun e => afterStart start e.id && beforeEnd stop e.id)).reverse.take count)

/-- The error outcomes of the endpoint, with their HTTP status codes. -/
inductive ApiError where
  | badRequest
  | notFound (message : String)
  | forbidden
deriving DecidableEq, Repr

/-- HTTP status code of each error outcome. -/
def ApiError.statusCode : ApiError → Nat
  | .badRequest => 400
  | .notFound _ => 404
  | .forbidden => 403

/-- The success response body of the get-entries endpoint, shaped as in the
responseSchema of the API test suite.  firstEntry and lastEntry are the
stream's own first and last entries (XINFO STREAM data) and are absent only
for an empty stream. -/
structure GetStreamEntriesResponse where
  keyName : String
  total : Nat
  lastGeneratedId : String
  firstEntry : Option StreamEntry
  lastEntry : Option StreamEntry
  entries : List StreamEntry
deriving DecidableEq, Repr

/-- Modelled from the spec: the get-entries service implementation is not
among the visible files.  Per the specification (section 4.1) the operation
delegates to the server's native commands and translates errors: it runs
XINFO STREAM on the key (403 when the ACL denies xinfo, 404 with message
"Key with this name does not exist." when the key is absent, 400 when the
key holds a non-stream value), then XRANGE for ASC or XREVRANGE for DESC
(403 when the ACL denies the command used), and shapes the response as
keyName, total, lastGeneratedId, firstEntry, lastEntry, entries. -/
def getEntries (inst : RedisInstance) (dto : GetStreamEntriesDto) :
    Except ApiError GetStreamEntriesResponse :=
  if !inst.acl.xinfo then .error .forbidden
  else match lookupKey dto.keyName inst.keys with
  | none => .error (.notFound "Key with this name does not exist.")
  | some .nonStream => .error .badRequest
  | some (.stream s) =>
    match dto.sortOrder with
    | .ASC =>
      if !inst.acl.xrange then .error .forbidden
      else .ok
        { keyName := dto.keyName
          total := s.entries.length
          lastGeneratedId := formatStreamId s.lastGeneratedId
          firstEntry := s.entries.head?
          lastEntry := s.entries.getLast?
          entries := xrangeEntries s dto.start dto.«end» dto.count }
    | .DESC =>
      if !inst.acl.xrevrange then .error .forbidden
      else .ok
        { keyName := dto.keyName
          total := s.entries.length
          lastGeneratedId := formatStreamId s.lastGeneratedId
          firstEntry := s.entries.head?
          lastEntry := s.entries.getLast?
          entries := xrevrangeEntries s dto.start dto.«end» dto.count }

/-- Is the JSON value an acceptable count: per the dataSchema of the API
test suite, count is a number that is an integer of at least 1, with the
boolean value true additionally allowed. -/
def validCount : JVal → Bool
  | .jint n => decide (1 ≤ n)
  | .jbool true => true
  | _ => false

/-- Is the JSON value an acceptable sortOrder: one of the strings DESC, ASC. -/
def validSortOrder : JVal → Bool
  | .jstr s => s == "DESC" || s == "ASC"
  | _ => false

/-- Modelled from the spec: the endpoint's request validation is not among
the visible files.  It checks the declared fields as the dataSchema of the
API test suite does (keyName a required string, the empty string allowed;
start and end strings; count an integer of at least 1, the boolean true
also accepted; sortOrder one of DESC, ASC); unknown extra fields are
ignored, as the API tests that send an extra offset field and still succeed
observe. -/
def validateBody (body : List (String × JVal)) : Bool :=
  (match lookupKey "keyName" body with | some (.jstr _) => true | _ => false) &&
  (match lookupKey "start" body with
    | some (.jstr _) => true | none => true | some _ => false) &&
  (match lookupKey "end" body with
    | some (.jstr _) => true | none => true | some _ => false) &&
  (match lookupKey "count" body with
    | some v => validCount v | none => true) &&
  (match lookupKey "sortOrder" body with
    | some v => validSortOrder v | none => true)

/-- Builds the request DTO from a validated body, filling in the default
values for absent fields (count also falls back to its default when the
whitelisted boolean true was sent). -/
def extractDto (body : List (String × JVal)) : GetStreamEntriesDto :=
  { keyName := match lookupKey "keyName" body with | some (.jstr s) => s | _ => ""
    start := match lookupKey "start" body with | some (.jstr s) => s | _ => "-"
    «end» := match lookupKey "end" body with | some (.jstr s) => s | _ => "+"
    count := match lookupKey "count" body with | some (.jint n) => n.toNat | _ => 500
    sortOrder := match lookupKey "sortOrder" body with
      | some (.jstr "ASC") => SortOrder.ASC
      | _ => SortOrder.DESC }

/-- The full request handler: resolves the instance id (404 with message
"Invalid database instance id." when unknown), validates the body (400 on
schema mismatch, before any range query is computed), and runs the
get-entries operation against the instance. -/
def handleGetEntriesRequest (instances : List (String × RedisInstance))
    (instanceId : String) (body : List (String × JVal)) :
    Except ApiError GetStreamEntriesResponse :=
  match lookupKey instanceId instances with
  | none => .error (.notFound "Invalid database instance id.")
  | some inst =>
    if validateBody body then getEntries inst (extractDto body)
    else .error .badRequest

/-- Serialization of a stream entry to JSON: an object with the fields id
(the wire-format id string) and fields (an object of field-value pairs). -/
def serializeEntry (e : StreamEntry) : JVal :=
  .jobj [("id", .jstr (formatStreamId e.id)),
         ("fields", .jobj (e.fields.map (fun p => (p.1, JVal.jstr p.2))))]

/-- Serialization of the success response to a JSON object, emitting
firstEntry and lastEntry only when present. -/
def serializeResponse (resp : GetStreamEntriesResponse) : List (String × JVal) :=
  [("keyName", JVal.jstr resp.keyName),
   ("total", JVal.jint resp.total),
   ("lastGeneratedId", JVal.jstr resp.lastGeneratedId)] ++
  (match resp.firstEntry with
    | some e => [("firstEntry", serializeEntry e)]
    | none => []) ++
  (match resp.lastEntry with
    | some e => [("lastEntry", serializeEntry e)]
    | none => []) ++
  [("entries", JVal.jarr (resp.entries.map serializeEntry))]

/-- The entrySchema of the API test suite: an object whose keys are exactly
drawn from id (a required string) and fields (a required object). -/
def matchesEntrySchema : JVal → Bool
  | .jobj fs =>
    fs.all (fun p => p.1 == "id" || p.1 == "fields") &&
    (match lookupKey "id" fs with | some (.jstr _) => true | _ => false) &&
    (match lookupKey "fields" fs with | some (.jobj _) => true | _ => false)
  | _ => false

/-- The responseSchema of the API test suite: an object with required keys
keyName (string), total (integer number), lastGeneratedId (string),
firstEntry and lastEntry (entry objects), entries (an array of entry
objects), and no unknown keys. -/
def matchesResponseSchema (fields : List (String × JVal)) : Bool :=
  fields.all (fun p =>
    ["keyName", "total", "lastGeneratedId", "firstEntry", "lastEntry",
      "entries"].contains p.1) &&
  (match lookupKey "keyName" fields with | some (.jstr _) => true | _ => false) &&
  (match lookupKey "total" fields with | some (.jint _) => true | _ => false) &&
  (match lookupKey "lastGeneratedId" fields with
    | some (.jstr _) => true | _ => false) &&
  (match lookupKey "firstEntry" fields with
    | some v => matchesEntrySchema v | none => false) &&
  (match lookupKey "lastEntry" fields with
    | some v => matchesEntrySchema v | none => false) &&
  (match lookupKey "entries" fields with
    | some (.jarr es) => es.all matchesEntrySchema | _ => false)

/-- Server-side well-formedness of an instance: the entry list of every
stored stream is strictly ascending in entry id (Redis maintains stream
entries in insertion order with strictly increasing ids). -/
def RedisInstance.wf (inst : RedisInstance) : Prop :=
  ∀ k s, (k, RedisValue.stream s) ∈ inst.keys →
    s.entries.Pairwise (fun a b => idLt a.id b.id)

/-! ## Concrete sample data used to exercise the endpoint -/

/-- A first sample stream entry. -/
def sampleEntryA : StreamEntry := { id := (1, 0), fields := [("f", "v")] }

/-- A second sample stream entry, with a larger id. -/
def sampleEntryB : StreamEntry := { id := (2, 0), fields := [("g", "w")] }

/-- A sample stream holding the two sample entries in ascending id order. -/
def sampleStream : RedisStream :=
  { entries := [sampleEntryA, sampleEntryB], lastGeneratedId := (2, 0) }

/-- A sample instance with one stream key, one non-stream key, and an
unrestricted ACL. -/
def sampleInstance : RedisInstance :=
  { keys := [("mystream", .stream sampleStream), ("mystring", .nonStream)]
    acl := { xinfo := true, xrange := true, xrevrange := true } }

/-- A sample instance whose ACL denies the xrange command. -/
def sampleRestrictedInstance : RedisInstance :=
  { keys := [("mystream", .stream sampleStream)]
    acl := { xinfo := true, xrange := false, xrevrange := true } }

/-- A sample instance registry with a single configured instance. -/
def sampleInstances : List (String × RedisInstance) := [("id1", sampleInstance)]

/-- A sample DTO querying the sample stream with all default parameters. -/
def sampleDto : GetStreamEntriesDto := { keyName := "mystream" }

/-- The response getEntries produces on the sample instance and sample DTO:
both entries, in descending id order. -/
def sampleResp : GetStreamEntriesResponse :=
  { keyName := "mystream", total := 2, lastGeneratedId := "2-0",
    firstEntry := some sampleEntryA, lastEntry := some sampleEntryB,
    entries := [sampleEntryB, sampleEntryA] }

/-! ## ConsumersView: client-side stable sorting by column (lodash orderBy) -/

/-- Modelled from the spec: ConsumerDto (apiSrc stream.dto) is not among the
visible files; per the specification, consumers are read-only projections of
XINFO results carrying a name and numeric counters. -/
structure ConsumerDto where
  name : String
  idle : Nat
  pending : Nat
deriving DecidableEq, Repr

/-- The value of one table cell: a numeric or a string column value. -/
inductive ColumnValue where
  | cnum (n : Nat)
  | cstr (s : String)
deriving DecidableEq, Repr

/-- The lodash orderBy iteratee is the column id used as a property name;
a column id that names no property yields none (JS undefined). -/
def consumerColumnValue (column : String) (c : ConsumerDto) : Option ColumnValue :=
  if column = "name" then some (.cstr c.name)
  else if column = "idle" then some (.cnum c.idle)
  else if column = "pending" then some (.cnum c.pending)
  else none

/-- Comparison of two cell values as the lodash comparator orders them;
the values of one column share one constructor, and across constructors
numbers are placed before strings to keep the order total. -/
def ColumnValue.le : ColumnValue → ColumnValue → Prop
  | .cnum a, .cnum b => a ≤ b
  | .cstr a, .cstr b => a ≤ b
  | .cnum _, .cstr _ => True
  | .cstr _, .cnum _ => False

instance : (a b : ColumnValue) → Decidable (ColumnValue.le a b)
  | .cnum a, .cnum b => inferInstanceAs (Decidable (a ≤ b))
  | .cstr a, .cstr b => inferInstanceAs (Decidable (a ≤ b))
  | .cnum _, .cstr _ => .isTrue trivial
  | .cstr _, .cnum _ => .isFalse id

/-- Lifting of the cell order to possibly-undefined cells: as in the lodash
comparator, defined values come before undefined ones in ascending order. -/
def keyLe : Option ColumnValue → Option ColumnValue → Prop
  | some a, some b => ColumnValue.le a b
  | some _, none => True
  | none, some _ => False
  | none, none => True

instance : (x y : Option ColumnValue) → Decidable (keyLe x y)
  | some a, some b => inferInstanceAs (Decidable (ColumnValue.le a b))
  | some _, none => .isTrue trivial
  | none, some _ => .isFalse id
  | none, none => .isTrue trivial

instance : IsTotal (Option ColumnValue) keyLe where
  total := by
    intro x y
    cases x with
    | none =>
      cases y with
      | none => exact Or.inl trivial
      | some b => exact Or.inr trivial
    | some a =>
      cases y with
      | none => exact Or.inl trivial
      | some b =>
        cases a with
        | cnum m =>
          cases b with
          | cnum n => exact Nat.le_total m n
          | cstr t => exact Or.inl trivial
        | cstr s =>
          cases b with
          | cnum n => exact Or.inr trivial
          | cstr t => exact le_total s t

instance : IsTrans (Option ColumnValue) keyLe where
  trans := by
    intro x y z hxy hyz
    cases x with
    | none =>
      cases y with
      | none => exact hyz
      | some b => exact hxy.elim
    | some a =>
      cases z with
      | none => exact trivial
      | some c =>
        cases y with
        | none => exact hyz.elim
        | some b =>
          cases a with
          | cnum m =>
            cases c with
            | cstr u => exact trivial
            | cnum p =>
              cases b with
              | cnum n => exact Nat.le_trans hxy hyz
              | cstr t => exact hyz.elim
          | cstr s =>
            cases b with
            | cnum n => exact hxy.elim
            | cstr t =>
              cases c with
              | cnum p => exact hyz.elim
              | cstr u => exact le_trans hxy hyz

/-- The row order a column-header click requests: the column's values
ascending for ASC, descending for DESC. -/
def consumerSortRel (column : String) (order : SortOrder) (a b : ConsumerDto) : Prop :=
  match order with
  | .ASC => keyLe (consumerColumnValue column a) (consumerColumnValue column b)
  | .DESC => keyLe (consumerColumnValue column b) (consumerColumnValue column a)

instance (column : String) (order : SortOrder) :
    DecidableRel (consumerSortRel column order) := fun a b => by
  unfold consumerSortRel
  cases order <;> exact inferInstance

instance (column : String) (order : SortOrder) :
    IsTotal ConsumerDto (consumerSortRel column order) where
  total := by
    intro a b
    cases order with
    | ASC => exact total_of keyLe _ _
    | DESC => exact (total_of keyLe _ _).symm

instance (column : String) (order : SortOrder) :
    IsTrans ConsumerDto (consumerSortRel column order) where
  trans := by
    intro a b c h1 h2
    cases order with
    | ASC => exact trans_of keyLe h1 h2
    | DESC => exact trans_of keyLe h2 h1

/-- orderBy as the consumers view uses it: a stable sort of the rows by the
named column in the requested direction (lodash documents sortBy and orderBy
as stable sorts, and a stable sort by a total preorder is uniquely
determined, so stable insertion sort models them exactly). -/
def orderBy (data : List ConsumerDto) (column : String) (order : SortOrder) :
    List ConsumerDto :=
  data.insertionSort (consumerSortRel column order)

/-- Local component state of ConsumersView: the held rows and the current
sort column and direction. -/
structure ConsumersViewState where
  consumers : List ConsumerDto
  sortedColumnName : String
  sortedColumnOrder : SortOrder
deriving DecidableEq, Repr

/-- onChangeSorting from ConsumersView: records the clicked column and
direction and re-sorts the held consumers list with orderBy. -/
def onChangeSorting (st : ConsumersViewState) (column : String) (order : SortOrder) :
    ConsumersViewState :=
  { consumers := orderBy st.consumers column order
    sortedColumnName := column
    sortedColumnOrder := order }

/-- A sample consumer list, out of order on the name column. -/
def sampleConsumers : List ConsumerDto :=
  [{ name := "b", idle := 0, pending := 2 }, { name := "a", idle := 1, pending := 1 }]

/-- A sample consumers-view state holding the sample rows. -/
def sampleConsumersState : ConsumersViewState :=
  { consumers := sampleConsumers, sortedColumnName := "name",
    sortedColumnOrder := .ASC }

/-! ## Theorems for the database helpers and the groups view -/

/-- C10: getDatabaseIdByName throws on a missing or empty name; when no
record matches the name it resolves to none (undefined) rather than
throwing; and when several records match it returns the id of the first
match in enumeration order. -/
theorem getDatabaseIdByName_spec :
    (∀ dbs : List DatabaseRecord,
      getDatabaseIdByName none dbs = .error "Error: Missing databaseName" ∧
      getDatabaseIdByName (some "") dbs = .error "Error: Missing databaseName") ∧
    (∀ (dbs : List DatabaseRecord) (n : String), n ≠ "" →
      dbs.filter (fun item => item.name == n) = [] →
      getDatabaseIdByName (some n) dbs = .ok none) ∧
    (∀ (dbs : List DatabaseRecord) (n : String) (d : DatabaseRecord), n ≠ "" →
      (dbs.filter (fun item => item.name == n)).head? = some d →
      getDatabaseIdByName (some n) dbs = .ok (some d.id)) := by
  refine ⟨fun dbs => ⟨rfl, rfl⟩, ?_, ?_⟩
  · intro dbs n hn hfilter
    simp [getDatabaseIdByName, getAllDatabases, hn, hfilter]
  · intro dbs n d hn hhead
    simp [getDatabaseIdByName, getAllDatabases, hn, hhead]

/-- Witness for getDatabaseIdByName_spec at concrete inputs. -/
theorem getDatabaseIdByName_spec_witness :
    getDatabaseIdByName (some "a")
      [{ id := "1", name := "b" }, { id := "2", name := "a" }, { id := "3", name := "a" }]
      = .ok (some "2") := by
  refine getDatabaseIdByName_spec.2.2 _ "a" { id := "2", name := "a" } (by decide) ?_
  rfl

/-- C4 counterexample: with two records sharing the name "a", deleting the
database named "a" removes only the first matching record, and a subsequent
lookup of "a" still returns an id (the surviving record's id "2"), so the
claim that the lookup afterwards returns no id is false. -/
theorem deleteStandaloneDatabaseApi_duplicate_name_cex :
    deleteStandaloneDatabaseApi (some "a")
      [{ id := "1", name := "a" }, { id := "2", name := "a" }]
      = .ok [{ id := "2", name := "a" }] ∧
    getDatabaseIdByName (some "a") [{ id := "2", name := "a" }] = .ok (some "2") := by
  exact ⟨rfl, rfl⟩

/-- C4 amended: when record ids are pairwise distinct and exactly one stored
record bears the requested name, deleting a database by that name removes
exactly one record and a subsequent lookup of the name returns no id. -/
theorem deleteStandaloneDatabaseApi_unique_name (dbs : List DatabaseRecord) (n : String)
    (d : DatabaseRecord)
    (hids : (dbs.map (·.id)).Nodup)
    (hn : n ≠ "")
    (hone : dbs.filter (fun item => item.name == n) = [d]) :
    deleteStandaloneDatabaseApi (some n) dbs = .ok (deleteDatabasesEndpoint [d.id] dbs) ∧
    (deleteDatabasesEndpoint [d.id] dbs).length + 1 = dbs.length ∧
    getDatabaseIdByName (some n) (deleteDatabasesEndpoint [d.id] dbs) = .ok none := by
  have hlookup : getDatabaseIdByName (some n) dbs = .ok (some d.id) := by
    simp [getDatabaseIdByName, getAllDatabases, hn, hone]
  have hdmem : d ∈ dbs := by
    have : d ∈ dbs.filter (fun item => item.name == n) := by
      rw [hone]; exact List.mem_singleton.mpr rfl
    exact List.mem_of_mem_filter this
  have hcount : (dbs.filter (fun db => db.id == d.id)).length = 1 := by
    have h1 : (dbs.map (·.id)).count d.id = 1 :=
      List.count_eq_one_of_mem hids (List.mem_map_of_mem _ hdmem)
    rw [List.count_eq_countP, List.countP_map, List.countP_eq_length_filter] at h1
    simpa [Function.comp] using h1
  have hlen : (deleteDatabasesEndpoint [d.id] dbs).length + 1 = dbs.length := by
    have hsplit := List.length_eq_length_filter_add (l := dbs) (fun db => db.id == d.id)
    rw [hcount] at hsplit
    simp only [deleteDatabasesEndpoint, List.contains_cons, List.contains_nil,
      Bool.or_false]
    omega
  refine ⟨?_, hlen, ?_⟩
  · simp [deleteStandaloneDatabaseApi, hlookup]
  · have hnil : (deleteDatabasesEndpoint [d.id] dbs).filter (fun item => item.name == n)
        = [] := by
      rw [List.filter_eq_nil_iff]
      intro x hx hname
      have hx' := List.mem_filter.mp hx
      have hxdbs : x ∈ dbs := hx'.1
      have hxid : x.id ≠ d.id := by
        have := hx'.2
        simpa using this
      have : x ∈ dbs.filter (fun item => item.name == n) :=
        List.mem_filter.mpr ⟨hxdbs, hname⟩
      rw [hone] at this
      exact hxid (by rw [List.mem_singleton.mp this])
    simp [getDatabaseIdByName, getAllDatabases, hn, hnil]

/-- Witness for deleteStandaloneDatabaseApi_unique_name at a concrete registry. -/
theorem deleteStandaloneDatabaseApi_unique_name_witness :
    deleteStandaloneDatabaseApi (some "a")
        [{ id := "1", name := "b" }, { id := "2", name := "a" }]
      = .ok (deleteDatabasesEndpoint ["2"]
        [{ id := "1", name := "b" }, { id := "2", name := "a" }]) ∧
    (deleteDatabasesEndpoint ["2"]
        [{ id := "1", name := "b" }, { id := "2", name := "a" }]).length + 1
      = ([{ id := "1", name := "b" }, { id := "2", name := "a" }] :
          List DatabaseRecord).length ∧
    getDatabaseIdByName (some "a") (deleteDatabasesEndpoint ["2"]
        [{ id := "1", name := "b" }, { id := "2", name := "a" }]) = .ok none := by
  exact deleteStandaloneDatabaseApi_unique_name
    [{ id := "1", name := "b" }, { id := "2", name := "a" }] "a"
    { id := "2", name := "a" } (by decide) (by decide) rfl

/-- C9: confirming deletion of a consumer group only closes the popover: the
groups list is unchanged, the deleting marker is cleared, no action is
dispatched, and the underlying stream state is left unchanged. -/
theorem handleDeleteGroup_frame (st : GroupsViewState) (groupName : String)
    (serverGroups : List String) :
    (handleDeleteGroup st groupName).1.groups = st.groups ∧
    (handleDeleteGroup st groupName).1.deleting = "" ∧
    (handleDeleteGroup st groupName).2 = [] ∧
    applyStreamActions serverGroups (handleDeleteGroup st groupName).2 = serverGroups := by
  exact ⟨rfl, rfl, rfl, rfl⟩

/-! ## Helper lemmas for the stream endpoint -/

/-- The strict id order implies the reflexive one. -/
theorem idLe_of_idLt {a b : StreamId} (h : idLt a b) : idLe a b := by
  unfold idLt at h
  unfold idLe
  rcases h with h | ⟨h1, h2⟩
  · exact Or.inl h
  · exact Or.inr ⟨h1, Nat.le_of_lt h2⟩

/-- A successful key lookup exhibits the pair in the association list. -/
theorem lookupKey_mem {V : Type} {k : String} {l : List (String × V)} {v : V}
    (h : lookupKey k l = some v) : (k, v) ∈ l := by
  unfold lookupKey at h
  rcases Option.map_eq_some'.mp h with ⟨p, hfind, hsnd⟩
  have hmem := List.mem_of_find?_eq_some hfind
  have hkey : p.1 = k := by simpa using List.find?_some hfind
  cases p
  simp_all

/-- On a well-formed instance, every successful get-entries response returns
at most count entries, ascending in id for ASC and descending for DESC. -/
theorem getEntries_ok_spec {inst : RedisInstance} {dto : GetStreamEntriesDto}
    {resp : GetStreamEntriesResponse} (hwf : inst.wf)
    (hok : getEntries inst dto = .ok resp) :
    resp.entries.length ≤ dto.count ∧
    (dto.sortOrder = .ASC → resp.entries.Pairwise (fun a b => idLe a.id b.id)) ∧
    (dto.sortOrder = .DESC → resp.entries.Pairwise (fun a b => idLe b.id a.id)) := by
  by_cases hx : inst.acl.xinfo = true
  · cases hkey : lookupKey dto.keyName inst.keys with
    | none => simp [getEntries, hx, hkey] at hok
    | some v =>
      cases v with
      | nonStream => simp [getEntries, hx, hkey] at hok
      | stream s =>
        have hsorted : s.entries.Pairwise (fun a b => idLt a.id b.id) :=
          hwf _ _ (lookupKey_mem hkey)
        have hfsorted : (s.entries.filter
            (fun e => afterStart dto.start e.id && beforeEnd dto.«end» e.id)).Pairwise
            (fun a b => idLt a.id b.id) :=
          List.Pairwise.sublist (List.filter_sublist _) hsorted
        cases horder : dto.sortOrder with
        | ASC =>
          by_cases hxr : inst.acl.xrange = true
          · have hresp : ({ keyName := dto.keyName, total := s.entries.length,
                             lastGeneratedId := formatStreamId s.lastGeneratedId,
                             firstEntry := s.entries.head?,
                             lastEntry := s.entries.getLast?,
                             entries := xrangeEntries s dto.start dto.«end» dto.count } :
                GetStreamEntriesResponse) = resp := by
              simpa [getEntries, hx, hkey, horder, hxr] using hok
            rw [← hresp]
            refine ⟨?_, fun _ => ?_, fun h => absurd h (by simp)⟩
            · exact List.length_take_le _ _
            · exact (List.Pairwise.sublist (List.take_sublist _ _) hfsorted).imp idLe_of_idLt
          · simp [getEntries, hx, hkey, horder, hxr] at hok
        | DESC =>
          by_cases hxr : inst.acl.xrevrange = true
          · have hresp : ({ keyName := dto.keyName, total := s.entries.length,
                             lastGeneratedId := formatStreamId s.lastGeneratedId,
                             firstEntry := s.entries.head?,
                             lastEntry := s.entries.getLast?,
                             entries := xrevrangeEntries s dto.start dto.«end» dto.count } :
                GetStreamEntriesResponse) = resp := by
              simpa [getEntries, hx, hkey, horder, hxr] using hok
            rw [← hresp]
            refine ⟨?_, fun h => absurd h (by simp), fun _ => ?_⟩
            · exact List.length_take_le _ _
            · have hrev : ((s.entries.filter
                  (fun e => afterStart dto.start e.id && beforeEnd dto.«end» e.id)).reverse).Pairwise
                  (fun a b => idLt b.id a.id) :=
                List.pairwise_reverse.mpr hfsorted
              exact (List.Pairwise.sublist (List.take_sublist _ _) hrev).imp idLe_of_idLt
          · simp [getEntries, hx, hkey, horder, hxr] at hok
  · replace hx : inst.acl.xinfo = false := by simpa using hx
    simp [getEntries, hx] at hok

/-- The sample instance is well formed: its only stream is ascending. -/
theorem sampleInstance_wf : sampleInstance.wf := by
  intro k s h
  simp only [sampleInstance] at h
  rcases List.mem_cons.mp h with h1 | h2
  · have hs : RedisValue.stream s = RedisValue.stream sampleStream :=
      congrArg Prod.snd h1
    cases hs
    decide
  · have h3 := List.mem_singleton.mp h2
    exact absurd (congrArg Prod.snd h3) (by simp)

/-- On success against a stream key, the response's firstEntry and lastEntry
are the stream's own first and last entries. -/
theorem getEntries_ok_first_last {inst : RedisInstance} {dto : GetStreamEntriesDto}
    {resp : GetStreamEntriesResponse} {s : RedisStream}
    (hkey : lookupKey dto.keyName inst.keys = some (RedisValue.stream s))
    (hok : getEntries inst dto = .ok resp) :
    resp.firstEntry = s.entries.head? ∧ resp.lastEntry = s.entries.getLast? := by
  by_cases hx : inst.acl.xinfo = true
  · cases horder : dto.sortOrder with
    | ASC =>
      by_cases hxr : inst.acl.xrange = true
      · have hresp : ({ keyName := dto.keyName, total := s.entries.length,
                         lastGeneratedId := formatStreamId s.lastGeneratedId,
                         firstEntry := s.entries.head?,
                         lastEntry := s.entries.getLast?,
                         entries := xrangeEntries s dto.start dto.«end» dto.count } :
            GetStreamEntriesResponse) = resp := by
          simpa [getEntries, hx, hkey, horder, hxr] using hok
        rw [← hresp]
        exact ⟨rfl, rfl⟩
      · simp [getEntries, hx, hkey, horder, hxr] at hok
    | DESC =>
      by_cases hxr : inst.acl.xrevrange = true
      · have hresp : ({ keyName := dto.keyName, total := s.entries.length,
                         lastGeneratedId := formatStreamId s.lastGeneratedId,
                         firstEntry := s.entries.head?,
                         lastEntry := s.entries.getLast?,
                         entries := xrevrangeEntries s dto.start dto.«end» dto.count } :
            GetStreamEntriesResponse) = resp := by
          simpa [getEntries, hx, hkey, horder, hxr] using hok
        rw [← hresp]
        exact ⟨rfl, rfl⟩
      · simp [getEntries, hx, hkey, horder, hxr] at hok
  · replace hx : inst.acl.xinfo = false := by simpa using hx
    simp [getEntries, hx] at hok

/-- Every serialized entry matches the entry schema. -/
theorem matchesEntrySchema_serializeEntry (e : StreamEntry) :
    matchesEntrySchema (serializeEntry e) = true := by
  simp [matchesEntrySchema, serializeEntry, lookupKey]

/-! ## Claim theorems for the stream endpoint -/

/-- C1: for every valid range query against a well-formed instance that
succeeds, the returned entries list has length at most count, and the
entries are ordered by entry id ascending for sortOrder ASC and descending
for sortOrder DESC. -/
theorem getEntries_count_and_order (inst : RedisInstance) (dto : GetStreamEntriesDto)
    (resp : GetStreamEntriesResponse) (hwf : inst.wf)
    (hok : getEntries inst dto = .ok resp) :
    resp.entries.length ≤ dto.count ∧
    (dto.sortOrder = .ASC → resp.entries.Pairwise (fun a b => idLe a.id b.id)) ∧
    (dto.sortOrder = .DESC → resp.entries.Pairwise (fun a b => idLe b.id a.id)) :=
  getEntries_ok_spec hwf hok

/-- Witness for getEntries_count_and_order on the sample instance. -/
theorem getEntries_count_and_order_witness :
    sampleResp.entries.length ≤ sampleDto.count ∧
    (sampleDto.sortOrder = .ASC →
      sampleResp.entries.Pairwise (fun a b => idLe a.id b.id)) ∧
    (sampleDto.sortOrder = .DESC →
      sampleResp.entries.Pairwise (fun a b => idLe b.id a.id)) :=
  getEntries_count_and_order sampleInstance sampleDto sampleResp
    sampleInstance_wf (by rfl)

/-- C2: a get-entries request for an existing non-stream key fails with 400;
a request for a key absent from the instance fails with 404 and message
"Key with this name does not exist."; a request addressed to an unknown
instance id fails with 404 and message "Invalid database instance id.". -/
theorem getEntries_error_policy :
    (∀ (inst : RedisInstance) (dto : GetStreamEntriesDto),
      inst.acl.xinfo = true →
      lookupKey dto.keyName inst.keys = some RedisValue.nonStream →
      getEntries inst dto = .error .badRequest ∧
      ApiError.badRequest.statusCode = 400) ∧
    (∀ (inst : RedisInstance) (dto : GetStreamEntriesDto),
      inst.acl.xinfo = true →
      lookupKey dto.keyName inst.keys = none →
      getEntries inst dto
        = .error (.notFound "Key with this name does not exist.") ∧
      (ApiError.notFound "Key with this name does not exist.").statusCode = 404) ∧
    (∀ (instances : List (String × RedisInstance)) (instanceId : String)
        (body : List (String × JVal)),
      lookupKey instanceId instances = none →
      handleGetEntriesRequest instances instanceId body
        = .error (.notFound "Invalid database instance id.") ∧
      (ApiError.notFound "Invalid database instance id.").statusCode = 404) := by
  refine ⟨?_, ?_, ?_⟩
  · intro inst dto hx hkey
    exact ⟨by simp [getEntries, hx, hkey], rfl⟩
  · intro inst dto hx hkey
    exact ⟨by simp [getEntries, hx, hkey], rfl⟩
  · intro instances instanceId body h
    exact ⟨by simp [handleGetEntriesRequest, h], rfl⟩

/-- Witness for getEntries_error_policy at concrete inputs. -/
theorem getEntries_error_policy_witness :
    (getEntries sampleInstance { keyName := "mystring" } = .error .badRequest ∧
      ApiError.badRequest.statusCode = 400) ∧
    (getEntries sampleInstance { keyName := "nosuch" }
        = .error (.notFound "Key with this name does not exist.") ∧
      (ApiError.notFound "Key with this name does not exist.").statusCode = 404) ∧
    (handleGetEntriesRequest sampleInstances "badid" []
        = .error (.notFound "Invalid database instance id.") ∧
      (ApiError.notFound "Invalid database instance id.").statusCode = 404) :=
  ⟨getEntries_error_policy.1 sampleInstance { keyName := "mystring" } rfl rfl,
   getEntries_error_policy.2.1 sampleInstance { keyName := "nosuch" } rfl rfl,
   getEntries_error_policy.2.2 sampleInstances "badid" [] rfl⟩

/-- C3: a get-entries request against an existing stream key issued by a
user whose ACL denies xinfo, denies xrange with sortOrder ASC, or denies
xrevrange with sortOrder DESC (the command the requested order uses), fails
with 403 Forbidden. -/
theorem getEntries_acl_forbidden (inst : RedisInstance) (dto : GetStreamEntriesDto)
    (s : RedisStream)
    (hkey : lookupKey dto.keyName inst.keys = some (RedisValue.stream s))
    (hdenied : inst.acl.xinfo = false ∨
      (dto.sortOrder = .ASC ∧ inst.acl.xrange = false) ∨
      (dto.sortOrder = .DESC ∧ inst.acl.xrevrange = false)) :
    getEntries inst dto = .error .forbidden ∧
    ApiError.forbidden.statusCode = 403 := by
  refine ⟨?_, rfl⟩
  rcases hdenied with hx | ⟨ho, hr⟩ | ⟨ho, hr⟩
  · simp [getEntries, hx]
  · by_cases hx : inst.acl.xinfo = true
    · simp [getEntries, hx, hkey, ho, hr]
    · replace hx : inst.acl.xinfo = false := by simpa using hx
      simp [getEntries, hx]
  · by_cases hx : inst.acl.xinfo = true
    · simp [getEntries, hx, hkey, ho, hr]
    · replace hx : inst.acl.xinfo = false := by simpa using hx
      simp [getEntries, hx]

/-- Witness for getEntries_acl_forbidden: an ASC query on an instance whose
ACL denies xrange. -/
theorem getEntries_acl_forbidden_witness :
    getEntries sampleRestrictedInstance { keyName := "mystream", sortOrder := .ASC }
      = .error .forbidden ∧
    ApiError.forbidden.statusCode = 403 :=
  getEntries_acl_forbidden sampleRestrictedInstance
    { keyName := "mystream", sortOrder := .ASC } sampleStream rfl
    (Or.inr (Or.inl ⟨rfl, rfl⟩))

/-- C5: every successful get-entries response against a nonempty stream
serializes to an object with exactly the fields keyName, total,
lastGeneratedId, firstEntry, lastEntry and entries, all present and matching
the response schema of the API test suite. -/
theorem getEntries_response_shape (inst : RedisInstance) (dto : GetStreamEntriesDto)
    (resp : GetStreamEntriesResponse) (s : RedisStream)
    (hkey : lookupKey dto.keyName inst.keys = some (RedisValue.stream s))
    (hne : s.entries ≠ [])
    (hok : getEntries inst dto = .ok resp) :
    (serializeResponse resp).map Prod.fst =
      ["keyName", "total", "lastGeneratedId", "firstEntry", "lastEntry",
        "entries"] ∧
    matchesResponseSchema (serializeResponse resp) = true := by
  obtain ⟨hfirst, hlast⟩ := getEntries_ok_first_last hkey hok
  obtain ⟨e1, he1⟩ : ∃ e, s.entries.head? = some e := by
    cases hs : s.entries with
    | nil => exact absurd hs hne
    | cons a t => exact ⟨a, by simp⟩
  obtain ⟨e2, he2⟩ : ∃ e, s.entries.getLast? = some e :=
    Option.isSome_iff_exists.mp (List.getLast?_isSome.mpr hne)
  rw [he1] at hfirst
  rw [he2] at hlast
  constructor
  · simp [serializeResponse, hfirst, hlast]
  · simp [matchesResponseSchema, serializeResponse, hfirst, hlast, lookupKey,
      matchesEntrySchema_serializeEntry, List.all_map, Function.comp]

/-- Witness for getEntries_response_shape on the sample instance. -/
theorem getEntries_response_shape_witness :
    (serializeResponse sampleResp).map Prod.fst =
      ["keyName", "total", "lastGeneratedId", "firstEntry", "lastEntry",
        "entries"] ∧
    matchesResponseSchema (serializeResponse sampleResp) = true :=
  getEntries_response_shape sampleInstance sampleDto sampleResp sampleStream
    rfl (by simp [sampleStream]) (by rfl)

/-- C6 counterexample: a body carrying an unknown extra field offset (as the
ACL tests of the API suite send) passes validation and the request succeeds
end to end instead of failing with 400, and a body carrying the boolean
true for count (whitelisted by the dataSchema) also passes validation. -/
theorem getEntries_validation_cex :
    handleGetEntriesRequest sampleInstances "id1"
      [("keyName", JVal.jstr "mystream"), ("offset", JVal.jint 0),
       ("count", JVal.jint 15), ("sortOrder", JVal.jstr "ASC")]
      = .ok { keyName := "mystream", total := 2, lastGeneratedId := "2-0",
              firstEntry := some sampleEntryA, lastEntry := some sampleEntryB,
              entries := [sampleEntryA, sampleEntryB] } ∧
    validateBody [("keyName", JVal.jstr "k"), ("count", JVal.jbool true)]
      = true := by
  exact ⟨rfl, rfl⟩

/-- C6 amended: a get-entries request to an existing instance whose body
fails the declared-field validation (keyName missing or not a string, start
or end present but not a string, count present but neither an integer of at
least 1 nor the whitelisted boolean true, sortOrder present but not ASC or
DESC) fails with a 400 validation error, uniformly in the instance's
keyspace, before any range query is computed. -/
theorem handleGetEntriesRequest_validation (instances : List (String × RedisInstance))
    (instanceId : String) (inst : RedisInstance) (body : List (String × JVal))
    (hinst : lookupKey instanceId instances = some inst)
    (hbad : validateBody body = false) :
    handleGetEntriesRequest instances instanceId body = .error .badRequest ∧
    ApiError.badRequest.statusCode = 400 := by
  exact ⟨by simp [handleGetEntriesRequest, hinst, hbad], rfl⟩

/-- Witness for handleGetEntriesRequest_validation: a body whose keyName is
a number. -/
theorem handleGetEntriesRequest_validation_witness :
    handleGetEntriesRequest sampleInstances "id1" [("keyName", JVal.jint 5)]
      = .error .badRequest ∧
    ApiError.badRequest.statusCode = 400 :=
  handleGetEntriesRequest_validation sampleInstances "id1" sampleInstance
    [("keyName", JVal.jint 5)] rfl rfl

/-- C8: a request that omits count and sortOrder defaults to at most 500
entries in descending id order. -/
theorem handleGetEntriesRequest_defaults (instances : List (String × RedisInstance))
    (instanceId : String) (inst : RedisInstance) (body : List (String × JVal))
    (resp : GetStreamEntriesResponse)
    (hinst : lookupKey instanceId instances = some inst)
    (hwf : inst.wf)
    (hcount : lookupKey "count" body = none)
    (horder : lookupKey "sortOrder" body = none)
    (hok : handleGetEntriesRequest instances instanceId body = .ok resp) :
    resp.entries.length ≤ 500 ∧
    resp.entries.Pairwise (fun a b => idLe b.id a.id) := by
  simp only [handleGetEntriesRequest, hinst] at hok
  by_cases hv : validateBody body = true
  · rw [if_pos hv] at hok
    have hdto1 : (extractDto body).count = 500 := by simp [extractDto, hcount]
    have hdto2 : (extractDto body).sortOrder = .DESC := by simp [extractDto, horder]
    have hspec := getEntries_ok_spec hwf hok
    exact ⟨hdto1 ▸ hspec.1, hspec.2.2 hdto2⟩
  · rw [if_neg hv] at hok
    exact absurd hok (by simp)

/-- Witness for handleGetEntriesRequest_defaults: a body holding only the
key name. -/
theorem handleGetEntriesRequest_defaults_witness :
    sampleResp.entries.length ≤ 500 ∧
    sampleResp.entries.Pairwise (fun a b => idLe b.id a.id) :=
  handleGetEntriesRequest_defaults sampleInstances "id1" sampleInstance
    [("keyName", JVal.jstr "mystream")] sampleResp rfl sampleInstance_wf
    rfl rfl (by rfl)

/-! ## Claim theorem for the consumers view sorting -/

/-- C7: a column-header click re-sorts the consumer list with a stable
comparator keyed by the clicked column and direction: the new list is a
permutation of the held list, it is ordered by the column's values in the
requested direction, and rows with equal column values keep their relative
order. -/
theorem onChangeSorting_spec (st : ConsumersViewState) (column : String)
    (order : SortOrder) :
    ((onChangeSorting st column order).consumers).Perm st.consumers ∧
    ((onChangeSorting st column order).consumers).Pairwise
      (consumerSortRel column order) ∧
    (∀ a b, List.Sublist [a, b] st.consumers →
      consumerColumnValue column a = consumerColumnValue column b →
      List.Sublist [a, b] ((onChangeSorting st column order).consumers)) := by
  refine ⟨List.perm_insertionSort _ _, List.sorted_insertionSort _ _, ?_⟩
  intro a b hsub heq
  refine List.pair_sublist_insertionSort ?_ hsub
  have hrefl : ∀ x : Option ColumnValue, keyLe x x := by
    intro x
    cases x with
    | none => exact trivial
    | some v =>
      cases v with
      | cnum n => exact Nat.le_refl n
      | cstr s => exact le_refl s
  cases order with
  | ASC =>
    show keyLe (consumerColumnValue column a) (consumerColumnValue column b)
    rw [heq]
    exact hrefl _
  | DESC =>
    show keyLe (consumerColumnValue column b) (consumerColumnValue column a)
    rw [heq]
    exact hrefl _

/-- Witness for onChangeSorting_spec on the sample state, name column,
ascending. -/
theorem onChangeSorting_spec_witness :
    ((onChangeSorting sampleConsumersState "name" .ASC).consumers).Perm
      sampleConsumersState.consumers ∧
    ((onChangeSorting sampleConsumersState "name" .ASC).consumers).Pairwise
      (consumerSortRel "name" SortOrder.ASC) ∧
    (∀ a b, List.Sublist [a, b] sampleConsumersState.consumers →
      consumerColumnValue "name" a = consumerColumnValue "name" b →
      List.Sublist [a, b] ((onChangeSorting sampleConsumersState "name" .ASC).consumers)) :=
  onChangeSorting_spec sampleConsumersState "name" .ASC
